import Mathlib

/-!
Verification of the Exifor repository (an interactive ExifTool front-end).

The development shallowly embeds the pieces of `src/exifor.py` (main, English
variant) and `src/Exifor/exifor.py` (localized variant) that the spec's
testable properties are about:

* the adapter entry point `ET._run` (exit-code contract);
* `ET.export_csv` (row flattening of the grouped tag mapping);
* `ET.write_gps` / `ET.read_gps` (sign/magnitude encoding of coordinates);
* `ET.strip_zip` / `ET.list_zip_metadata` (extract → strip → repack pipeline
  with a guaranteed temp-directory cleanup) and the two `act_zip` user flows;
* the file-browser row construction and one step of its input loop, in both
  variants.

Modelling conventions: machine text is `String`; file bytes are `List Nat`;
the external metadata engine is an opaque parameter (a byte transformation
for the strip pipeline, a persistent per-path tag store for tag reads and
writes — modelled from the spec, which calls the engine an opaque black box
that performs the actual reads/writes); user coordinates are exact rationals,
which coincide with Python floats on the short decimal literals the claims
mention.  Fallible operations return `Except`.
-/

/-! ### Decimal rendering of rationals

`ratStr` mirrors Python's `str(float)` on floats that come from short decimal
literals: an integral value prints with a trailing `.0` (`str(40.0) = "40.0"`),
and a terminating fraction prints its digits without trailing zeros
(`str(abs(-74.0060)) = "74.006"`).  Digits are produced by `natDigs`.
-/

def digitChar (d : Nat) : Char := "0123456789".toList.getD d '0'

def natDigsAux : Nat → Nat → List Char
  | _, 0 => []
  | n, fuel + 1 =>
    if n < 10 then [digitChar n]
    else natDigsAux (n / 10) fuel ++ [digitChar (n % 10)]

def natDigs (n : Nat) : List Char := natDigsAux n (n + 1)

def trimRightZeros (cs : List Char) : List Char :=
  (cs.reverse.dropWhile (fun c => c = '0')).reverse

def fracDigs (frac k : Nat) : List Char :=
  let padded := List.replicate (k - (natDigs frac).length) '0' ++ natDigs frac
  let t := trimRightZeros padded
  if t = [] then ['0'] else t

/-- Least `k ≤ 40` with `den ∣ 10 ^ k` (terminating decimal check). -/
def findPow (den : Nat) : Option Nat :=
  (List.range 41).find? (fun k => 10 ^ k % den = 0)

def ratStr (q : ℚ) : String :=
  let sign : List Char := if q < 0 then ['-'] else []
  let n := q.num.natAbs
  let d := q.den
  match findPow d with
  | some k =>
    let scaled := n * (10 ^ k / d)
    ⟨sign ++ natDigs (scaled / 10 ^ k) ++ '.' :: fracDigs (scaled % 10 ^ k) k⟩
  | none => ⟨sign ++ natDigs n ++ '/' :: natDigs d⟩

/-! ### Adapter entry point (`ET._run`)

`subprocess.run` outcomes are abstracted into `RunOutcome`: either the binary
ran to completion with an exit code and captured stdout/stderr, or the binary
was missing (`FileNotFoundError`).
-/

inductive RunOutcome where
  | completed (returncode : Int) (stdout stderr : String)
  | binMissing
deriving DecidableEq

/-- Structural `str.endswith` over the character list. -/
def strEndsWith (s pat : String) : Bool := pat.toList.isSuffixOf s.toList

/-- Structural `str.startswith` over the character list. -/
def strStartsWith (s pat : String) : Bool := pat.toList.isPrefixOf s.toList

/-- Structural `str.lower()`. -/
def strToLower (s : String) : String := ⟨s.toList.map Char.toLower⟩

/-- Structural `str.split("/")`: the slash-separated components of a
character list (splitting the empty list yields one empty component). -/
def splitSlash (cs : List Char) : List (List Char) :=
  cs.foldr (fun c acc =>
    match acc with
    | [] => [[c]]
    | h :: t => if c = '/' then [] :: h :: t else (c :: h) :: t) [[]]

/-- Python's `str.strip()`: drop leading and trailing whitespace. -/
def pyStrip (s : String) : String :=
  ⟨((s.toList.dropWhile Char.isWhitespace).reverse.dropWhile
      Char.isWhitespace).reverse⟩

namespace ET

def _run (o : RunOutcome) : Except String String :=
  match o with
  | .binMissing => .error "ExifTool not found"
  | .completed rc out se =>
    if rc = 0 ∨ rc = 1 then .ok out
    else .error (if pyStrip se = "" then "ExifTool error" else pyStrip se)

end ET

/-! ### CSV export (`ET.export_csv`)

A grouped tag mapping (the value returned by `ET.read`, i.e. the first element
of ExifTool's `-json -g` array) is a finite ordered mapping from top-level
keys to values which are either nested mappings (groups of tags) or scalars
(`SourceFile`, `ExifToolVersion`, ...).  Scalars of any JSON type are
represented by their `str()` rendering, which is all `export_csv` keeps.
-/

inductive JVal where
  | s (v : String)
  | obj (kvs : List (String × String))
deriving DecidableEq

structure CsvRow where
  group : String
  tag : String
  value : String
deriving DecidableEq

namespace ET

/-- The data rows built by the `for grp, vals in data.items()` loop of
`export_csv`: nested mappings flatten to one row per inner key, scalars to a
single row with an empty group column. -/
def export_csv_rows (data : List (String × JVal)) : List CsvRow :=
  data.foldl (fun rows gv =>
    match gv.2 with
    | .obj kvs => rows ++ kvs.map (fun kv => ⟨gv.1, kv.1, kv.2⟩)
    | .s sv => rows ++ [⟨"", gv.1, sv⟩]) []

/-- Number of lines in the written CSV file: the header written by
`writeheader` plus one line per data row. -/
def export_csv_lineCount (data : List (String × JVal)) : Nat :=
  1 + (export_csv_rows data).length

end ET

/-! ### GPS tag reads and writes

Modelled from the spec: the external metadata engine (§1, §4.1, Glossary) is
the opaque component that actually persists tag values in a file and returns
them when asked; the repository only composes argument lists (`-Tag=value`,
`-TAG`).  It is modelled as a per-path tag store `TagStore`: `ET.write`
applies its `-Tag=value` pairs to the target path (later pairs shadow
earlier ones only through lookup order, mirroring a Python dict's
insertion-ordered items), and `ET.read_tags` returns the requested tags that
are present.  The `backup` flag only selects the engine's backup convention
(`-overwrite_original` absent) and does not change which tag values the
engine ends up storing, so the store model ignores it.
-/

abbrev TagStore := String → String → Option String

def lookupTag (tags : List (String × String)) (t : String) : Option String :=
  (tags.find? (fun kv => kv.1 == t)).map (fun kv => kv.2)

namespace ET

def write (st : TagStore) (path : String) (tags : List (String × String))
    (_backup : Bool) : TagStore :=
  fun p t =>
    if p = path then
      match lookupTag tags t with
      | some v => some v
      | none => st p t
    else st p t

def read_tags (st : TagStore) (path : String) (tags : List String) :
    List (String × String) :=
  tags.filterMap (fun t => (st path t).map (fun v => (t, v)))

def read_gps (st : TagStore) (path : String) : List (String × String) :=
  read_tags st path [
    "GPSLatitude", "GPSLongitude", "GPSAltitude",
    "GPSLatitudeRef", "GPSLongitudeRef", "GPSAltitudeRef",
    "GPSSpeed", "GPSDateStamp", "GPSTimeStamp"]

/-- `write_gps`: magnitudes are `str(abs(·))`, signs go into the reference
tags (`lat >= 0` ↔ `0 ≤ lat`), altitude tags only when an altitude is
given. -/
def write_gps (st : TagStore) (path : String) (lat lon : ℚ) (alt : Option ℚ)
    (backup : Bool) : TagStore :=
  let tags := [("GPSLatitude", ratStr |lat|),
               ("GPSLatitudeRef", if 0 ≤ lat then "N" else "S"),
               ("GPSLongitude", ratStr |lon|),
               ("GPSLongitudeRef", if 0 ≤ lon then "E" else "W")]
  let tags := match alt with
    | none => tags
    | some a => tags ++ [("GPSAltitude", ratStr |a|),
                         ("GPSAltitudeRef", if 0 ≤ a then "0" else "1")]
  ET.write st path tags backup

end ET

/-! ### The ZIP pipeline

A ZIP archive is its ordered list of entries (`zipfile.namelist()` order);
an entry whose name ends in `"/"` is a directory entry.  `extractall` is
modelled as writing each non-directory entry verbatim at its archive path
inside the fresh temp directory, a later entry overwriting an earlier one
with the same name, exactly as sequential extraction does on disk.  (Python's
`extractall` additionally sanitizes absolute or `..` entry names and errors
out on file/directory name clashes; the theorems that depend on extraction
restrict themselves to archives — `Archive.zipWellFormed` — on which the
verbatim model agrees with it.)

The filesystem visible to the ZIP operations maps paths to file data; the
single ephemeral temp directory owned by a call is a separate `tmp` slot so
that its existence after the call is directly observable.  The external
engine's recursive strip pass over the temp directory is an opaque parameter:
either a failure carrying stderr text, or a byte transformation applied to
every extracted file.
-/

structure ZipEntry where
  name : String
  content : List Nat
deriving DecidableEq

structure Archive where
  entries : List ZipEntry
deriving DecidableEq

def Archive.fileEntries (A : Archive) : List ZipEntry :=
  A.entries.filter (fun e => !(strEndsWith e.name "/"))

/-- The non-directory entry names, i.e. `[n for n in zf.namelist() if not
n.endswith("/")]` as counted by `act_zip`. -/
def Archive.fileNames (A : Archive) : List String :=
  A.fileEntries.map (fun e => e.name)

/-- A path component list with no empty, `"."` or `".."` components and no
leading slash: entry names on which extraction at the verbatim path matches
`extractall`. -/
def normalName (s : String) : Prop :=
  s ≠ "" ∧ strStartsWith s "/" = false ∧
    ∀ c ∈ splitSlash s.toList, c ≠ [] ∧ c ≠ ['.'] ∧ c ≠ ['.', '.']

instance (s : String) : Decidable (normalName s) := by
  unfold normalName; infer_instance

/-- Archives on which the verbatim extraction model is faithful and on which
every non-directory entry yields its own file: normalized names, no
duplicate file names, and no entry nested under a file name. -/
def Archive.zipWellFormed (A : Archive) : Prop :=
  A.fileNames.Nodup ∧ (∀ n ∈ A.fileNames, normalName n) ∧
    ∀ n ∈ A.fileNames, ∀ e ∈ A.entries, strStartsWith e.name (n ++ "/") = false

instance (A : Archive) : Decidable A.zipWellFormed := by
  unfold Archive.zipWellFormed; infer_instance

/-- Contents of the temp extraction directory: archive-relative path →
bytes. -/
abbrev TmpFiles := List (String × List Nat)

/-- Writing one extracted file: overwrite an existing file at that relative
path, otherwise create it. -/
def tmpWrite (t : TmpFiles) (k : String) (v : List Nat) : TmpFiles :=
  if t.any (fun p => p.1 == k) then
    t.map (fun p => if p.1 == k then (k, v) else p)
  else t ++ [(k, v)]

def extractallGo (t : TmpFiles) (es : List ZipEntry) : TmpFiles :=
  es.foldl (fun t e =>
    if strEndsWith e.name "/" then t else tmpWrite t e.name e.content) t

def Archive.extractall (A : Archive) : TmpFiles := extractallGo [] A.entries

inductive FData where
  | plain (bytes : List Nat)
  | zip (a : Archive)
deriving DecidableEq

abbrev FS := String → Option FData

def FS.set (fs : FS) (k : String) (v : FData) : FS :=
  fun p => if p = k then some v else fs p

/-- State seen by the ZIP operations: the filesystem plus the one ephemeral
`exifor_` temp directory (`some contents` while it exists on disk, `none`
once removed). -/
structure St where
  fs : FS
  tmp : Option TmpFiles

/-- The engine's `-all= -overwrite_original -r` pass over the temp directory:
a failure (non-{0,1} exit, stderr text) or a byte transformation applied to
every file in place. -/
abbrev StripEngine := Except String (List Nat → List Nat)

/-- The archive repacked by the `os.walk` loop: every file remaining in the
temp directory, under its temp-relative path. -/
def repacked (t : TmpFiles) : Archive :=
  ⟨t.map (fun p => ⟨p.1, p.2⟩)⟩

namespace ET

/-- `strip_zip`: make a fresh temp dir; extract the input archive into it;
run the engine's recursive strip pass; write every remaining file into a new
ZIP at `zip_out` (`"w"` mode creates or truncates that path); return the
number of files written; and on every exit path remove the temp dir
(`try/finally` with `shutil.rmtree`). -/
def strip_zip (eng : StripEngine) (st : St) (zip_in zip_out : String) :
    Except String Nat × St :=
  match st.fs zip_in with
  | some (FData.zip A) =>
    let t := A.extractall
    match eng with
    | .error e => (.error e, ⟨st.fs, none⟩)
    | .ok f =>
      let t2 := t.map (fun p => (p.1, f p.2))
      (.ok t2.length, ⟨st.fs.set zip_out (FData.zip (repacked t2)), none⟩)
  | some (FData.plain _) => (.error "BadZipFile", ⟨st.fs, none⟩)
  | none => (.error "FileNotFound", ⟨st.fs, none⟩)

end ET

/-! ### ZIP inspection (`ET.list_zip_metadata`)

The engine's recursive `-json -a -u -r` read over the temp directory is an
opaque parameter: a failure, or the parsed list of per-file JSON objects
(blank output parses to the empty list).  Each object maps keys to nested
mappings or scalars exactly as in the CSV model.
-/

abbrev ZItem := List (String × JVal)

def sourceFileOf (it : ZItem) : String :=
  match (it.find? (fun kv => kv.1 == "SourceFile")).map (fun kv => kv.2) with
  | some (JVal.s v) => v
  | _ => ""

/-- `sum(len(v) if isinstance(v, dict) else 1 for k, v in item.items() if k
not in ("SourceFile", "ExifToolVersion", "File"))`. -/
def tagCount (it : ZItem) : Nat :=
  (it.filter (fun kv =>
      !(kv.1 == "SourceFile" || kv.1 == "ExifToolVersion" || kv.1 == "File"))).foldl
    (fun a kv => a + match kv.2 with | JVal.obj o => o.length | JVal.s _ => 1) 0

/-- `os.path.relpath(src, tmpdir)` for the sources the engine reports, which
all live under `tmpdir`. -/
def relpathUnder (tmpdir src : String) : String :=
  if strStartsWith src (tmpdir ++ "/") then
    ⟨src.toList.drop (tmpdir.length + 1)⟩
  else src

namespace ET

/-- `list_zip_metadata`: extract to a fresh temp dir, read all files
recursively, report `(relative path, tag count)` per reported item, and on
every exit path remove the temp dir. -/
def list_zip_metadata (engR : Except String (List ZItem)) (st : St)
    (tmpdir zip_in : String) : Except String (List (String × Nat)) × St :=
  match st.fs zip_in with
  | some (FData.zip A) =>
    let _t := A.extractall
    match engR with
    | .error e => (.error e, ⟨st.fs, none⟩)
    | .ok items =>
      (.ok (items.map (fun it =>
        (relpathUnder tmpdir (sourceFileOf it), tagCount it))), ⟨st.fs, none⟩)
  | some (FData.plain _) => (.error "BadZipFile", ⟨st.fs, none⟩)
  | none => (.error "FileNotFound", ⟨st.fs, none⟩)

end ET

/-! ### The two `act_zip` clean flows

Paths are taken already absolute and normalized, so `os.path.abspath` is the
identity and `os.path.exists(out_path)` is a filesystem lookup.  The user's
answer to the "already exists, overwrite?" prompt is the `overwriteOk`
parameter.  The main variant (`src/exifor.py`) refuses an output path equal
to the input before anything is stripped or repacked; the localized variant
(`src/Exifor/exifor.py`) has no such check and goes straight from the
overwrite prompt to `strip_zip`.
-/

inductive ZipOutcome where
  | notZip
  | openFailed
  | refusedSamePath
  | cancelledOverwrite
  | toolFailed (msg : String)
  | cleaned (n : Nat)
deriving DecidableEq

/-- The `raw == "1"` (Clean ZIP) branch of `act_zip` in `src/exifor.py`. -/
def act_zip_clean (eng : StripEngine) (st : St) (path out_path : String)
    (overwriteOk : Bool) : ZipOutcome × St :=
  if !(strEndsWith (strToLower path) ".zip") then (.notZip, st)
  else match st.fs path with
    | some (FData.zip _) =>
      if out_path = path then (.refusedSamePath, st)
      else if (st.fs out_path).isSome && !overwriteOk then (.cancelledOverwrite, st)
      else match ET.strip_zip eng st path out_path with
        | (.ok n, st') => (.cleaned n, st')
        | (.error e, st') => (.toolFailed e, st')
    | _ => (.openFailed, st)

/-- The `raw == "1"` (clean) branch of `act_zip` in `src/Exifor/exifor.py`:
same flow, but with no equal-path refusal. -/
def act_zip_clean_ru (eng : StripEngine) (st : St) (path out_path : String)
    (overwriteOk : Bool) : ZipOutcome × St :=
  if !(strEndsWith (strToLower path) ".zip") then (.notZip, st)
  else match st.fs path with
    | some (FData.zip _) =>
      if (st.fs out_path).isSome && !overwriteOk then (.cancelledOverwrite, st)
      else match ET.strip_zip eng st path out_path with
        | (.ok n, st') => (.cleaned n, st')
        | (.error e, st') => (.toolFailed e, st')
    | _ => (.openFailed, st)

/-! ### The file browser

`browse` keeps one mutable piece of state, the current directory `cwd`.  Each
loop iteration lists the directory, builds the numbered rows, and dispatches
on one line of user input.  Directory entries are modelled by their name and
their `is_dir()` / `is_file()` flags; the sorted listing order is irrelevant
to the properties proved here, so rows are built from the listing as given.
`os.path.dirname` and `os.path.splitext`'s extension (leading dots of a
basename never start an extension) are implemented after their CPython
posixpath definitions.
-/

def rfindSlashEnd (cs : List Char) : Nat :=
  (cs.foldl (fun (st : Nat × Nat) c =>
    (st.1 + 1, if c = '/' then st.1 + 1 else st.2)) (0, 0)).2

def stripTrailingSlashes (cs : List Char) : List Char :=
  (cs.reverse.dropWhile (fun c => c = '/')).reverse

/-- `posixpath.dirname`: everything up to the last slash, with trailing
slashes stripped unless the head is all slashes. -/
def dirname (p : String) : String :=
  let cs := p.toList
  let head := cs.take (rfindSlashEnd cs)
  let head := if head ≠ [] ∧ head.any (fun c => c ≠ '/') then
      stripTrailingSlashes head
    else head
  ⟨head⟩

def lastDotIdx (cs : List Char) : Option Nat :=
  (cs.foldl (fun (st : Nat × Option Nat) c =>
    (st.1 + 1, if c = '.' then some (st.1 + 1) else st.2)) (0, none)).2

/-- The extension part of `os.path.splitext(name)` for a bare file name: the
suffix from the last dot, provided some non-dot character precedes it. -/
def extOf (name : String) : String :=
  let cs := name.toList
  match lastDotIdx cs with
  | none => ""
  | some i =>
    if (cs.take (i - 1)).any (fun c => c ≠ '.') then ⟨cs.drop (i - 1)⟩ else ""

def MEDIA : List String :=
  [".jpg", ".jpeg", ".png", ".tiff", ".tif", ".heic", ".heif",
   ".gif", ".bmp", ".webp", ".raw", ".cr2", ".cr3", ".nef",
   ".arw", ".dng", ".orf", ".rw2", ".pef",
   ".mp4", ".mov", ".avi", ".mkv", ".m4v", ".3gp", ".wmv",
   ".mp3", ".flac", ".m4a", ".wav", ".aac", ".ogg",
   ".pdf", ".docx", ".xlsx", ".pptx",
   ".zip"]

def isMedia (name : String) : Bool := MEDIA.contains (strToLower (extOf name))

structure Entry where
  name : String
  isDir : Bool
  isFile : Bool
deriving DecidableEq

inductive RowKind where
  | up
  | dir
  | file
deriving DecidableEq

structure Row where
  kind : RowKind
  path : String
deriving DecidableEq

/-- `os.path.join(cwd, name)` as `os.scandir` produces entry paths. -/
def joinPath (cwd name : String) : String :=
  if strEndsWith cwd "/" then cwd ++ name else cwd ++ "/" ++ name

/-- The numbered rows of one browser screen: the go-up row, then
non-hidden directories, then files with a recognized media extension, then
the remaining files (`e not in media` is name-wise the complement, since a
directory listing holds each name once). -/
def browseRows (cwd : String) (entries : List Entry) : List Row :=
  let dirs := entries.filter (fun e => e.isDir && !(strStartsWith e.name "."))
  let files := entries.filter (fun e => e.isFile)
  let media := files.filter (fun e => isMedia e.name)
  let other := files.filter (fun e => !(isMedia e.name))
  ⟨RowKind.up, dirname cwd⟩ ::
    (dirs.map (fun e => ⟨RowKind.dir, joinPath cwd e.name⟩)
      ++ media.map (fun e => ⟨RowKind.file, joinPath cwd e.name⟩)
      ++ other.map (fun e => ⟨RowKind.file, joinPath cwd e.name⟩))

/-- `int(raw)` on an already-stripped, lowercased input line. -/
def parseIntStr (s : String) : Option Int :=
  let digs (cs : List Char) : Option Nat :=
    if cs.isEmpty then none
    else cs.foldl (fun acc c =>
      match acc with
      | some n => if '0' ≤ c ∧ c ≤ '9' then some (n * 10 + (c.toNat - '0'.toNat)) else none
      | none => none) (some 0)
  match s.toList with
  | '-' :: rest => (digs rest).map (fun n => -(n : Int))
  | '+' :: rest => (digs rest).map (fun n => (n : Int))
  | cs => (digs cs).map (fun n => (n : Int))

inductive Ev where
  | warnRoot
  | errFileNotFolder
  | errBadIndex
  | errBadPath
deriving DecidableEq

inductive StepOut where
  | done (sel : Option String)
  | next (cwd : String) (events : List Ev)
deriving DecidableEq

/-- One iteration of the `browse` loop of `src/exifor.py` after the listing:
`raw` is the stripped, lowercased input line; `manual` is the path the user
would type at the `p` prompt; `isDirP`/`isFileP` are the filesystem's
`os.path.isdir`/`os.path.isfile`.  Rows are numbered from 1; the go-up row
at the filesystem root warns and keeps the state. -/
def browseStep (wantDir : Bool) (cwd : String) (entries : List Entry)
    (raw manual : String) (isDirP isFileP : String → Bool) : StepOut :=
  let rows := browseRows cwd entries
  if raw = "0" then .done none
  else if raw = "s" ∧ wantDir = true then .done (some cwd)
  else if raw = "p" then
    if wantDir ∧ isDirP manual = true then .done (some manual)
    else if ¬wantDir = true ∧ isFileP manual = true then .done (some manual)
    else .next cwd [.errBadPath]
  else match parseIntStr raw with
    | none => .next cwd [.errBadIndex]
    | some idx =>
      if idx < 1 ∨ (rows.length : Int) < idx then .next cwd [.errBadIndex]
      else
        let row := rows.getD (idx - 1).toNat ⟨RowKind.up, ""⟩
        match row.kind with
        | .up =>
          let parent := dirname cwd
          if parent = cwd then .next cwd [.warnRoot] else .next parent []
        | .dir => .next row.path []
        | .file =>
          if wantDir then .next cwd [.errFileNotFolder]
          else .done (some row.path)

/-- One iteration of the `browse` loop of `src/Exifor/exifor.py`: cancel key
`q`, rows numbered from 0, and the go-up row simply assigns the parent path
with no at-root warning. -/
def browseStepRu (wantDir : Bool) (cwd : String) (entries : List Entry)
    (raw manual : String) (isDirP isFileP : String → Bool) : StepOut :=
  let rows := browseRows cwd entries
  if raw = "q" then .done none
  else if raw = "s" ∧ wantDir = true then .done (some cwd)
  else if raw = "p" then
    if wantDir ∧ isDirP manual = true then .done (some manual)
    else if ¬wantDir = true ∧ isFileP manual = true then .done (some manual)
    else .next cwd [.errBadPath]
  else match parseIntStr raw with
    | none => .next cwd [.errBadIndex]
    | some idx =>
      if idx < 0 ∨ (rows.length : Int) ≤ idx then .next cwd [.errBadIndex]
      else
        let row := rows.getD idx.toNat ⟨RowKind.up, ""⟩
        match row.kind with
        | .up => .next row.path []
        | .dir => .next row.path []
        | .file =>
          if wantDir then .next cwd [.errFileNotFolder]
          else .done (some row.path)

/-! ### Derived forms and concrete fixtures used by the theorems -/

/-- The archive `strip_zip` writes at `zip_out` on its success path. -/
def cleanedArchive (f : List Nat → List Nat) (A : Archive) : Archive :=
  repacked (A.extractall.map (fun p => (p.1, f p.2)))

/-- A small well-formed archive: one directory entry and two files. -/
def AW2 : Archive := ⟨[⟨"docs/", []⟩, ⟨"docs/a.txt", [1, 2]⟩, ⟨"b.png", [3]⟩]⟩

def stW2 : St := ⟨fun p => if p = "in.zip" then some (FData.zip AW2) else none, none⟩

/-- An archive with two identically named non-directory entries. -/
def ADup : Archive := ⟨[⟨"x", [1]⟩, ⟨"x", [2]⟩]⟩

def stDup : St := ⟨fun p => if p = "in.zip" then some (FData.zip ADup) else none, none⟩

/-- A one-file archive with nonempty content. -/
def AOne : Archive := ⟨[⟨"x", [7]⟩]⟩

def stOne : St := ⟨fun p => if p = "a.zip" then some (FData.zip AOne) else none, none⟩

/-- An engine pass that strips every file down to empty bytes. -/
def engZero : StripEngine := Except.ok (fun _ => [])

/-- A listing with a hidden directory and a hidden media file. -/
def entsW : List Entry := [⟨".git", true, false⟩, ⟨".pic.jpg", false, true⟩]

/-- `40.7128` as a rational in lowest terms, via the raw constructor so that
it evaluates by kernel reduction. -/
def latNY : ℚ := ⟨50891, 1250, by norm_num, by norm_num⟩

/-- `-74.0060` as a rational in lowest terms. -/
def lonNY : ℚ := ⟨-37003, 500, by norm_num, by norm_num⟩

/-! ## Theorems -/

/-! ### CSV export -/

theorem export_csv_rows_go (data : List (String × JVal)) : ∀ acc : List CsvRow,
    data.foldl (fun rows gv =>
      match gv.2 with
      | .obj kvs => rows ++ kvs.map (fun kv => ⟨gv.1, kv.1, kv.2⟩)
      | .s sv => rows ++ [⟨"", gv.1, sv⟩]) acc
    = acc ++ data.flatMap (fun gv =>
      match gv.2 with
      | .obj kvs => kvs.map (fun kv => ⟨gv.1, kv.1, kv.2⟩)
      | .s sv => [⟨"", gv.1, sv⟩]) := by
  induction data with
  | nil => intro acc; simp
  | cons gv rest ih =>
    intro acc
    cases h : gv.2 <;> simp [h, ih, List.append_assoc]

theorem csv_bind_length (data : List (String × JVal)) :
    (data.flatMap (fun gv =>
      match gv.2 with
      | JVal.obj kvs => kvs.map (fun kv => (⟨gv.1, kv.1, kv.2⟩ : CsvRow))
      | JVal.s sv => [⟨"", gv.1, sv⟩])).length
    = (data.map (fun gv =>
        match gv.2 with
        | JVal.obj kvs => kvs.length
        | JVal.s _ => 1)).sum := by
  induction data with
  | nil => simp
  | cons gv rest ih => cases h : gv.2 <;> simp [h, ih, Nat.add_comm]

/-- C6: for every grouped tag mapping, the CSV export writes one header line
plus, for each top-level entry, one line per inner key when the value is a
mapping and a single line when it is a scalar; and the rows are exactly the
flattening in which a scalar entry's row carries an empty group column. -/
theorem C6_export_csv_rows_spec (data : List (String × JVal)) :
    ET.export_csv_lineCount data
      = 1 + (data.map (fun gv =>
          match gv.2 with
          | JVal.obj kvs => kvs.length
          | JVal.s _ => 1)).sum
    ∧ ET.export_csv_rows data = data.flatMap (fun gv =>
        match gv.2 with
        | JVal.obj kvs => kvs.map (fun kv => ⟨gv.1, kv.1, kv.2⟩)
        | JVal.s sv => [⟨"", gv.1, sv⟩]) := by
  have h : ET.export_csv_rows data = data.flatMap (fun gv =>
      match gv.2 with
      | JVal.obj kvs => kvs.map (fun kv => ⟨gv.1, kv.1, kv.2⟩)
      | JVal.s sv => [⟨"", gv.1, sv⟩]) := by
    have := export_csv_rows_go data []
    simpa [ET.export_csv_rows] using this
  refine ⟨?_, h⟩
  rw [ET.export_csv_lineCount, h, csv_bind_length]

/-! ### Adapter entry point -/

/-- C5 (amended): `_run` returns the captured stdout when the exit code is 0
or 1; on any other exit code it raises an error carrying the stripped
captured stderr, or the fixed message "ExifTool error" when the stderr is
blank; and the binary-not-found condition raises the fixed message "ExifTool
not found". -/
theorem C5_run_contract (rc : Int) (out se : String) :
    ((rc = 0 ∨ rc = 1) → ET._run (.completed rc out se) = .ok out)
    ∧ (¬(rc = 0 ∨ rc = 1) → pyStrip se ≠ "" →
        ET._run (.completed rc out se) = .error (pyStrip se))
    ∧ (¬(rc = 0 ∨ rc = 1) → pyStrip se = "" →
        ET._run (.completed rc out se) = .error "ExifTool error")
    ∧ ET._run .binMissing = .error "ExifTool not found" := by
  refine ⟨fun h => ?_, fun h hs => ?_, fun h hs => ?_, rfl⟩
  · simp [ET._run, h]
  · simp [ET._run, h, hs]
  · simp [ET._run, h, hs]

/-- Witness for C5_run_contract: exit code 2 with stderr `"  boom  "` raises
the stripped stderr text. -/
theorem C5_run_contract_witness :
    ¬((2 : Int) = 0 ∨ (2 : Int) = 1) ∧ pyStrip "  boom  " ≠ ""
    ∧ ET._run (.completed 2 "payload" "  boom  ") = .error "boom" := by
  refine ⟨by decide, by decide, ?_⟩
  have h := (C5_run_contract 2 "payload" "  boom  ").2.1 (by decide) (by decide)
  rw [h]; rfl

/-- C5 counterexample: an exit code outside {0, 1} with empty captured stderr
raises the fixed message "ExifTool error", not an error carrying the captured
stderr text (the empty string). -/
theorem C5_counterexample_blank_stderr_fallback :
    ET._run (.completed 2 "o" "") = .error "ExifTool error"
    ∧ Except.error (ε := String) (α := String) "ExifTool error" ≠ .error "" := by
  constructor
  · rfl
  · intro h
    exact absurd (Except.error.inj h) (by decide)

/-! ### GPS -/

theorem write_gps_lat (st : TagStore) (path : String) (lat lon : ℚ)
    (alt : Option ℚ) (backup : Bool) :
    ET.write_gps st path lat lon alt backup path "GPSLatitude"
      = some (ratStr |lat|) := by
  cases alt <;> simp [ET.write_gps, ET.write, lookupTag]

theorem write_gps_latRef (st : TagStore) (path : String) (lat lon : ℚ)
    (alt : Option ℚ) (backup : Bool) :
    ET.write_gps st path lat lon alt backup path "GPSLatitudeRef"
      = some (if 0 ≤ lat then "N" else "S") := by
  cases alt <;> simp [ET.write_gps, ET.write, lookupTag]

theorem write_gps_lon (st : TagStore) (path : String) (lat lon : ℚ)
    (alt : Option ℚ) (backup : Bool) :
    ET.write_gps st path lat lon alt backup path "GPSLongitude"
      = some (ratStr |lon|) := by
  cases alt <;> simp [ET.write_gps, ET.write, lookupTag]

theorem write_gps_lonRef (st : TagStore) (path : String) (lat lon : ℚ)
    (alt : Option ℚ) (backup : Bool) :
    ET.write_gps st path lat lon alt backup path "GPSLongitudeRef"
      = some (if 0 ≤ lon then "E" else "W") := by
  cases alt <;> simp [ET.write_gps, ET.write, lookupTag]

theorem write_gps_alt (st : TagStore) (path : String) (lat lon a : ℚ)
    (backup : Bool) :
    ET.write_gps st path lat lon (some a) backup path "GPSAltitude"
      = some (ratStr |a|) := by
  simp [ET.write_gps, ET.write, lookupTag]

theorem write_gps_altRef (st : TagStore) (path : String) (lat lon a : ℚ)
    (backup : Bool) :
    ET.write_gps st path lat lon (some a) backup path "GPSAltitudeRef"
      = some (if 0 ≤ a then "0" else "1") := by
  simp [ET.write_gps, ET.write, lookupTag]

theorem write_gps_alt_none (st : TagStore) (path : String) (lat lon : ℚ)
    (backup : Bool) :
    ET.write_gps st path lat lon none backup path "GPSAltitude"
      = st path "GPSAltitude" := by
  simp [ET.write_gps, ET.write, lookupTag]

theorem digitChar_ne_neg (d : Nat) : digitChar d ≠ '-' := by
  unfold digitChar
  match d with
  | 0 | 1 | 2 | 3 | 4 | 5 | 6 | 7 | 8 | 9 => decide
  | n + 10 =>
    rw [List.getD_eq_default]
    · decide
    · simp

theorem natDigsAux_ne_neg (fuel : Nat) : ∀ n, '-' ∉ natDigsAux n fuel := by
  induction fuel with
  | zero => intro n hc; simp [natDigsAux] at hc
  | succ fuel ih =>
    intro n hc
    rw [natDigsAux] at hc
    split at hc
    · rw [List.mem_singleton] at hc
      exact digitChar_ne_neg n hc.symm
    · rcases List.mem_append.mp hc with h1 | h2
      · exact ih (n / 10) h1
      · rw [List.mem_singleton] at h2
        exact digitChar_ne_neg (n % 10) h2.symm

theorem natDigs_ne_neg (n : Nat) : '-' ∉ natDigs n :=
  natDigsAux_ne_neg (n + 1) n

theorem trimRightZeros_subset {c : Char} {l : List Char}
    (h : c ∈ trimRightZeros l) : c ∈ l := by
  unfold trimRightZeros at h
  rw [List.mem_reverse] at h
  exact List.mem_reverse.mp (List.dropWhile_sublist _ |>.mem h)

theorem fracDigs_ne_neg (f k : Nat) : '-' ∉ fracDigs f k := by
  unfold fracDigs
  dsimp only
  split
  · decide
  · intro hc
    rcases List.mem_append.mp (trimRightZeros_subset hc) with h1 | h2
    · exact absurd (List.eq_of_mem_replicate h1) (by decide)
    · exact natDigs_ne_neg f h2

/-- A rendered non-negative rational contains no minus sign. -/
theorem ratStr_nonneg_no_neg {q : ℚ} (hq : 0 ≤ q) : '-' ∉ (ratStr q).data := by
  have hneg : ¬(q < 0) := not_lt.mpr hq
  unfold ratStr
  dsimp only
  cases hf : findPow q.den with
  | some k =>
    simp only [hf, if_neg hneg]
    intro hc
    rcases List.mem_append.mp hc with h1 | h2
    · rcases List.mem_append.mp h1 with h1a | h1b
      · simp at h1a
      · exact natDigs_ne_neg _ h1b
    · rcases List.mem_cons.mp h2 with h2a | h2b
      · exact absurd h2a (by decide)
      · exact fracDigs_ne_neg _ _ h2b
  | none =>
    simp only [hf, if_neg hneg]
    intro hc
    rcases List.mem_append.mp hc with h1 | h2
    · rcases List.mem_append.mp h1 with h1a | h1b
      · simp at h1a
      · exact natDigs_ne_neg _ h1b
    · rcases List.mem_cons.mp h2 with h2a | h2b
      · exact absurd h2a (by decide)
      · exact natDigs_ne_neg _ h2b

/-- C9: `write_gps` writes only non-negative magnitudes — the stored
magnitude strings are the renderings of the absolute values and contain no
minus sign — and encodes the sign solely in the reference tags; at the zero
boundary, latitude 0 gets reference "N", longitude 0 gets "E", and altitude 0
gets "0" (above sea level); with no altitude given, no altitude tag is
written. -/
theorem C9_write_gps_magnitudes_and_refs (st : TagStore) (path : String)
    (lat lon a : ℚ) (backup : Bool) :
    (ET.write_gps st path lat lon (some a) backup path "GPSLatitude"
        = some (ratStr |lat|)
      ∧ ET.write_gps st path lat lon (some a) backup path "GPSLongitude"
        = some (ratStr |lon|)
      ∧ ET.write_gps st path lat lon (some a) backup path "GPSAltitude"
        = some (ratStr |a|))
    ∧ ('-' ∉ (ratStr |lat|).data ∧ '-' ∉ (ratStr |lon|).data
      ∧ '-' ∉ (ratStr |a|).data)
    ∧ (ET.write_gps st path lat lon (some a) backup path "GPSLatitudeRef"
        = some (if 0 ≤ lat then "N" else "S")
      ∧ ET.write_gps st path lat lon (some a) backup path "GPSLongitudeRef"
        = some (if 0 ≤ lon then "E" else "W")
      ∧ ET.write_gps st path lat lon (some a) backup path "GPSAltitudeRef"
        = some (if 0 ≤ a then "0" else "1"))
    ∧ (ET.write_gps st path 0 0 (some 0) backup path "GPSLatitudeRef" = some "N"
      ∧ ET.write_gps st path 0 0 (some 0) backup path "GPSLongitudeRef" = some "E"
      ∧ ET.write_gps st path 0 0 (some 0) backup path "GPSAltitudeRef" = some "0")
    ∧ ET.write_gps st path lat lon none backup path "GPSAltitude"
        = st path "GPSAltitude" := by
  refine ⟨⟨write_gps_lat .., write_gps_lon .., write_gps_alt ..⟩,
    ⟨ratStr_nonneg_no_neg (abs_nonneg lat), ratStr_nonneg_no_neg (abs_nonneg lon),
      ratStr_nonneg_no_neg (abs_nonneg a)⟩,
    ⟨write_gps_latRef .., write_gps_lonRef .., write_gps_altRef ..⟩,
    ⟨?_, ?_, ?_⟩, write_gps_alt_none ..⟩
  · rw [write_gps_latRef]; norm_num
  · rw [write_gps_lonRef]; norm_num
  · rw [write_gps_altRef]; norm_num

/-- C8: writing GPS coordinates (40.7128, -74.0060) with no altitude and then
reading GPS tags from the same file yields latitude "40.7128" with latitude
reference "N" and longitude reference "W". -/
theorem C8_write_then_read_gps_roundtrip (st : TagStore) (path : String) :
    ("GPSLatitude", "40.7128")
      ∈ ET.read_gps (ET.write_gps st path (40.7128 : ℚ) (-74.0060 : ℚ) none false) path
    ∧ ("GPSLatitudeRef", "N")
      ∈ ET.read_gps (ET.write_gps st path (40.7128 : ℚ) (-74.0060 : ℚ) none false) path
    ∧ ("GPSLongitudeRef", "W")
      ∈ ET.read_gps (ET.write_gps st path (40.7128 : ℚ) (-74.0060 : ℚ) none false) path := by
  have hq1 : (40.7128 : ℚ) = latNY := by
    rw [latNY, Rat.mk'_eq_divInt, Rat.divInt_eq_div]; norm_num
  have hq2 : (-74.0060 : ℚ) = lonNY := by
    rw [lonNY, Rat.mk'_eq_divInt, Rat.divInt_eq_div]; norm_num
  have hlat := write_gps_lat st path (40.7128 : ℚ) (-74.0060 : ℚ) none false
  have hlatR := write_gps_latRef st path (40.7128 : ℚ) (-74.0060 : ℚ) none false
  have hlonR := write_gps_lonRef st path (40.7128 : ℚ) (-74.0060 : ℚ) none false
  have e1 : ratStr |(40.7128 : ℚ)| = "40.7128" := by
    rw [hq1, abs_of_nonneg (by decide : (0 : ℚ) ≤ latNY)]; decide
  have e2 : (if (0 : ℚ) ≤ (40.7128 : ℚ) then "N" else "S") = "N" := by
    rw [hq1, if_pos (by decide : (0 : ℚ) ≤ latNY)]
  have e3 : (if (0 : ℚ) ≤ (-74.0060 : ℚ) then "E" else "W") = "W" := by
    rw [hq2, if_neg (by decide : ¬(0 : ℚ) ≤ lonNY)]
  refine ⟨?_, ?_, ?_⟩
  · rw [ET.read_gps, ET.read_tags]
    refine List.mem_filterMap.mpr ⟨"GPSLatitude", by simp, ?_⟩
    rw [hlat, e1]; rfl
  · rw [ET.read_gps, ET.read_tags]
    refine List.mem_filterMap.mpr ⟨"GPSLatitudeRef", by simp, ?_⟩
    rw [hlatR, e2]; rfl
  · rw [ET.read_gps, ET.read_tags]
    refine List.mem_filterMap.mpr ⟨"GPSLongitudeRef", by simp, ?_⟩
    rw [hlonR, e3]; rfl

/-! ### ZIP pipeline -/

theorem extractallGo_eq (es : List ZipEntry) : ∀ t : TmpFiles,
    ((es.filter (fun e => !(strEndsWith e.name "/"))).map (fun e => e.name)).Nodup →
    (∀ e ∈ es, strEndsWith e.name "/" = false → ∀ p ∈ t, p.1 ≠ e.name) →
    extractallGo t es
      = t ++ (es.filter (fun e => !(strEndsWith e.name "/"))).map
          (fun e => (e.name, e.content)) := by
  induction es with
  | nil => intro t _ _; simp [extractallGo]
  | cons e rest ih =>
    intro t hnd hdis
    by_cases hd : strEndsWith e.name "/"
    · have hfil : (e :: rest).filter (fun e => !(strEndsWith e.name "/"))
          = rest.filter (fun e => !(strEndsWith e.name "/")) :=
        List.filter_cons_of_neg (by simp [hd])
      have hstep : extractallGo t (e :: rest) = extractallGo t rest := by
        simp [extractallGo, hd]
      rw [hstep, hfil]
      refine ih t (by rwa [hfil] at hnd) ?_
      intro e' he' hf p hp
      exact hdis e' (List.mem_cons_of_mem _ he') hf p hp
    · have hb : strEndsWith e.name "/" = false := by simp [hd]
      have hfil : (e :: rest).filter (fun e => !(strEndsWith e.name "/"))
          = e :: rest.filter (fun e => !(strEndsWith e.name "/")) :=
        List.filter_cons_of_pos (by simp [hb])
      have hany : (t.any (fun p => p.1 == e.name)) = false := by
        rw [List.any_eq_false]
        intro p hp
        simp only [beq_iff_eq]
        exact hdis e (List.mem_cons_self _ _) hb p hp
      have hstep : extractallGo t (e :: rest)
          = extractallGo (t ++ [(e.name, e.content)]) rest := by
        simp [extractallGo, hd, tmpWrite, hany]
      rw [hfil] at hnd
      rw [List.map_cons, List.nodup_cons] at hnd
      have hnd1 := hnd.1
      have hnd2 := hnd.2
      have hdis' : ∀ e' ∈ rest, strEndsWith e'.name "/" = false →
          ∀ p ∈ t ++ [(e.name, e.content)], p.1 ≠ e'.name := by
        intro e' he' hf p hp
        rcases List.mem_append.mp hp with hp1 | hp2
        · exact hdis e' (List.mem_cons_of_mem _ he') hf p hp1
        · rw [List.mem_singleton] at hp2
          subst hp2
          intro hEq
          exact hnd1 (List.mem_map.mpr
            ⟨e', List.mem_filter.mpr ⟨he', by simp [hf]⟩, hEq.symm⟩)
      rw [hstep, ih (t ++ [(e.name, e.content)]) hnd2 hdis', hfil]
      simp [List.append_assoc]

theorem Archive.extractall_eq (A : Archive) (h : A.zipWellFormed) :
    A.extractall = A.fileEntries.map (fun e => (e.name, e.content)) := by
  have hnd : ((A.entries.filter (fun e => !(strEndsWith e.name "/"))).map
      (fun e => e.name)).Nodup := h.1
  have := extractallGo_eq A.entries [] hnd (by intro e _ _ p hp; simp at hp)
  simpa [Archive.extractall, Archive.fileEntries] using this

/-- C2 (amended): on a well-formed input archive — normalized, pairwise
distinct non-directory entry names, none shadowed by a nested entry —
`strip_zip` succeeds with a processed-file count equal to the number N of
non-directory entries, and writes at the output path an archive with exactly
N entries whose archive-relative paths match the input's non-directory entry
paths. -/
theorem C2_clean_zip_count_and_names (f : List Nat → List Nat) (st : St)
    (zin zout : String) (A : Archive) (hA : st.fs zin = some (FData.zip A))
    (hwf : A.zipWellFormed) :
    (ET.strip_zip (.ok f) st zin zout).1 = Except.ok A.fileNames.length
    ∧ ((ET.strip_zip (.ok f) st zin zout).2).fs zout
        = some (FData.zip (cleanedArchive f A))
    ∧ (cleanedArchive f A).entries.length = A.fileNames.length
    ∧ ((cleanedArchive f A).entries.map (fun e => e.name)).Perm A.fileNames := by
  have hx := A.extractall_eq hwf
  have hlen : (A.extractall.map (fun p => (p.1, f p.2))).length
      = A.fileNames.length := by
    rw [hx]; simp [Archive.fileNames]
  have hnames : ((cleanedArchive f A).entries.map (fun e => e.name))
      = A.fileNames := by
    rw [cleanedArchive, repacked, hx]
    simp [Archive.fileNames]
  refine ⟨?_, ?_, ?_, ?_⟩
  · rw [ET.strip_zip, hA]
    simpa using hlen
  · rw [ET.strip_zip, hA]
    simp [FS.set, cleanedArchive]
  · rw [cleanedArchive, repacked]
    simpa using hlen
  · rw [hnames]

/-- Witness for C2_clean_zip_count_and_names at a three-entry archive (one
directory entry, two files). -/
theorem C2_clean_zip_count_and_names_witness :
    stW2.fs "in.zip" = some (FData.zip AW2) ∧ AW2.zipWellFormed
    ∧ (ET.strip_zip (.ok id) stW2 "in.zip" "out.zip").1
        = Except.ok AW2.fileNames.length :=
  ⟨rfl, by decide,
    (C2_clean_zip_count_and_names id stW2 "in.zip" "out.zip" AW2 rfl (by decide)).1⟩

/-- C2 counterexample: an archive holding two non-directory entries that
share the name "x" has N = 2, but extraction overwrites the first with the
second, so strip_zip processes and repacks a single file and returns 1. -/
theorem C2_counterexample_duplicate_names :
    ADup.fileNames.length = 2
    ∧ (ET.strip_zip (.ok id) stDup "in.zip" "out.zip").1 = Except.ok 1 := by
  constructor
  · rfl
  · rfl

/-- C3 (amended): whenever the output path differs from the input path (as
the main variant's flow enforces), strip_zip leaves the data at the input
path unchanged, whether it succeeds or fails. -/
theorem C3_input_unchanged_when_paths_differ (eng : StripEngine) (st : St)
    (zin zout : String) (h : zout ≠ zin) :
    ((ET.strip_zip eng st zin zout).2).fs zin = st.fs zin := by
  rw [ET.strip_zip]
  cases hin : st.fs zin with
  | none => exact hin
  | some d =>
    cases d with
    | plain b => exact hin
    | zip A =>
      cases eng with
      | error e => exact hin
      | ok f =>
        simp only [FS.set, if_neg (Ne.symm h)]
        exact hin

/-- Witness for C3_input_unchanged_when_paths_differ at a concrete archive
and distinct paths. -/
theorem C3_input_unchanged_when_paths_differ_witness :
    ("out.zip" : String) ≠ "in.zip"
    ∧ ((ET.strip_zip (.ok id) stW2 "in.zip" "out.zip").2).fs "in.zip"
        = stW2.fs "in.zip" :=
  ⟨by decide,
    C3_input_unchanged_when_paths_differ (.ok id) stW2 "in.zip" "out.zip" (by decide)⟩

/-- C3 counterexample: strip_zip called with the output path equal to the
input path (reachable through the localized variant's flow) truncates the
input archive and rewrites it with the cleaned contents, so the input is not
byte-identical afterwards. -/
theorem C3_counterexample_same_path_clobbers_input :
    ((ET.strip_zip engZero stOne "a.zip" "a.zip").2).fs "a.zip"
      ≠ stOne.fs "a.zip" := by decide

/-- C4: after any call to strip_zip or list_zip_metadata — success or
failure — the temporary extraction directory created by the call no longer
exists. -/
theorem C4_tempdir_absent_after_call (eng : StripEngine)
    (engR : Except String (List ZItem)) (st st' : St)
    (tmpdir zin zin' zout : String) :
    ((ET.strip_zip eng st zin zout).2).tmp = none
    ∧ ((ET.list_zip_metadata engR st' tmpdir zin').2).tmp = none := by
  constructor
  · rw [ET.strip_zip]
    cases st.fs zin with
    | none => rfl
    | some d =>
      cases d with
      | plain b => rfl
      | zip A => cases eng with
        | error e => rfl
        | ok f => rfl
  · rw [ET.list_zip_metadata.eq_def]
    cases st'.fs zin' with
    | none => rfl
    | some d =>
      cases d with
      | plain b => rfl
      | zip A => cases engR with
        | error e => rfl
        | ok items => rfl

/-! ### ZIP clean flows -/

/-- C1 (amended): the main variant's zip-clean flow refuses an output path
equal to the input path — before any strip or repack, leaving the state
untouched; the localized variant's flow performs no such check. -/
theorem C1_main_flow_refuses_same_path (eng : StripEngine) (st : St)
    (path : String) (ow : Bool) (A : Archive)
    (h1 : strEndsWith (strToLower path) ".zip" = true)
    (h2 : st.fs path = some (FData.zip A)) :
    act_zip_clean eng st path path ow = (ZipOutcome.refusedSamePath, st) := by
  rw [act_zip_clean, h1, h2]
  simp

/-- Witness for C1_main_flow_refuses_same_path at a concrete one-file
archive. -/
theorem C1_main_flow_refuses_same_path_witness :
    strEndsWith (strToLower "a.zip") ".zip" = true
    ∧ stOne.fs "a.zip" = some (FData.zip AOne)
    ∧ act_zip_clean engZero stOne "a.zip" "a.zip" true
        = (ZipOutcome.refusedSamePath, stOne) :=
  ⟨by decide, rfl,
    C1_main_flow_refuses_same_path engZero stOne "a.zip" true AOne (by decide) rfl⟩

/-- C1 counterexample: the localized variant's flow, asked to clean "a.zip"
onto itself with the overwrite prompt confirmed, does not refuse: it strips
and repacks one file and overwrites the input archive. -/
theorem C1_counterexample_localized_flow_strips_same_path :
    (act_zip_clean_ru engZero stOne "a.zip" "a.zip" true).1 = ZipOutcome.cleaned 1
    ∧ ((act_zip_clean_ru engZero stOne "a.zip" "a.zip" true).2).fs "a.zip"
        ≠ stOne.fs "a.zip" := by
  constructor
  · rfl
  · decide

/-! ### Browser -/

/-- C7 (amended): choosing the go-up entry at the filesystem root leaves the
current directory unchanged in both variants; the main variant also emits the
"Already at root" warning, while the localized variant continues silently. -/
theorem C7_up_at_root_keeps_cwd (wantDir : Bool) (cwd : String)
    (entries : List Entry) (manual : String) (dP fP : String → Bool)
    (h : dirname cwd = cwd) :
    browseStep wantDir cwd entries "1" manual dP fP = StepOut.next cwd [Ev.warnRoot]
    ∧ browseStepRu wantDir cwd entries "0" manual dP fP = StepOut.next cwd [] := by
  obtain ⟨tl, htl⟩ : ∃ tl, browseRows cwd entries
      = ⟨RowKind.up, dirname cwd⟩ :: tl := ⟨_, rfl⟩
  have hp1 : parseIntStr "1" = some 1 := rfl
  have hp0 : parseIntStr "0" = some 0 := rfl
  constructor
  · rw [browseStep, htl]
    simp [hp1, h]
  · rw [browseStepRu, htl]
    simp [hp0, h]

/-- Witness for C7_up_at_root_keeps_cwd at the filesystem root "/" with an
empty listing. -/
theorem C7_up_at_root_keeps_cwd_witness :
    dirname "/" = "/"
    ∧ browseStep false "/" [] "1" "" (fun _ => false) (fun _ => false)
        = StepOut.next "/" [Ev.warnRoot] :=
  ⟨rfl, (C7_up_at_root_keeps_cwd false "/" [] "" (fun _ => false) (fun _ => false) rfl).1⟩

/-- C7 counterexample: in the localized variant, choosing the go-up entry at
the filesystem root keeps the directory but emits no warning at all, so the
step is not "a no-op with a warning" there. -/
theorem C7_counterexample_localized_up_no_warning :
    browseStepRu false "/" [] "0" "" (fun _ => false) (fun _ => false)
      = StepOut.next "/" []
    ∧ StepOut.next "/" ([] : List Ev) ≠ StepOut.next "/" [Ev.warnRoot] := by
  constructor
  · decide
  · decide

/-- C10: in every browser listing, a directory row exists exactly for the
non-hidden directories (directories whose name starts with "." are
excluded), a file row exists exactly for the files — a leading dot does not
exclude a file; and entering the number of any file row returns that file's
path (the row is selectable). -/
theorem C10_browser_hidden_entries (cwd : String) (entries : List Entry)
    (manual : String) (dP fP : String → Bool) :
    (∀ p, Row.mk RowKind.dir p ∈ browseRows cwd entries ↔
      ∃ e, e ∈ entries ∧ e.isDir = true ∧ strStartsWith e.name "." = false
        ∧ p = joinPath cwd e.name)
    ∧ (∀ p, Row.mk RowKind.file p ∈ browseRows cwd entries ↔
      ∃ e, e ∈ entries ∧ e.isFile = true ∧ p = joinPath cwd e.name)
    ∧ (∀ raw idx, parseIntStr raw = some idx → 1 ≤ idx →
        idx ≤ ((browseRows cwd entries).length : Int) →
        ((browseRows cwd entries).getD (idx - 1).toNat ⟨RowKind.up, ""⟩).kind
          = RowKind.file →
        browseStep false cwd entries raw manual dP fP =
          StepOut.done
            (some (((browseRows cwd entries).getD (idx - 1).toNat
              ⟨RowKind.up, ""⟩).path))) := by
  refine ⟨?_, ?_, ?_⟩
  · intro p
    constructor
    · intro hp
      rw [browseRows] at hp
      rcases List.mem_cons.mp hp with h0 | h1
      · simp at h0
      · rcases List.mem_append.mp h1 with h2 | h3
        · rcases List.mem_append.mp h2 with h4 | h5
          · rcases List.mem_map.mp h4 with ⟨e, he, heq⟩
            rcases List.mem_filter.mp he with ⟨hee, hcond⟩
            have hcond' : e.isDir = true ∧ strStartsWith e.name "." = false := by
              simpa using hcond
            exact ⟨e, hee, hcond'.1, hcond'.2, (congrArg Row.path heq).symm⟩
          · rcases List.mem_map.mp h5 with ⟨e, _, heq⟩
            simp at heq
        · rcases List.mem_map.mp h3 with ⟨e, _, heq⟩
          simp at heq
    · rintro ⟨e, he, hdir, hnh, rfl⟩
      rw [browseRows]
      refine List.mem_cons.mpr (Or.inr (List.mem_append.mpr (Or.inl
        (List.mem_append.mpr (Or.inl (List.mem_map.mpr ⟨e, ?_, rfl⟩))))))
      exact List.mem_filter.mpr ⟨he, by simp [hdir, hnh]⟩
  · intro p
    constructor
    · intro hp
      rw [browseRows] at hp
      rcases List.mem_cons.mp hp with h0 | h1
      · simp at h0
      · rcases List.mem_append.mp h1 with h2 | h3
        · rcases List.mem_append.mp h2 with h4 | h5
          · rcases List.mem_map.mp h4 with ⟨e, _, heq⟩
            simp at heq
          · rcases List.mem_map.mp h5 with ⟨e, he, heq⟩
            rcases List.mem_filter.mp he with ⟨hef, _⟩
            rcases List.mem_filter.mp hef with ⟨hee, hfile⟩
            exact ⟨e, hee, hfile, (congrArg Row.path heq).symm⟩
        · rcases List.mem_map.mp h3 with ⟨e, he, heq⟩
          rcases List.mem_filter.mp he with ⟨hef, _⟩
          rcases List.mem_filter.mp hef with ⟨hee, hfile⟩
          exact ⟨e, hee, hfile, (congrArg Row.path heq).symm⟩
    · rintro ⟨e, he, hfile, rfl⟩
      rw [browseRows]
      have hef : e ∈ entries.filter (fun e => e.isFile) :=
        List.mem_filter.mpr ⟨he, hfile⟩
      by_cases hm : isMedia e.name
      · refine List.mem_cons.mpr (Or.inr (List.mem_append.mpr (Or.inl
          (List.mem_append.mpr (Or.inr (List.mem_map.mpr ⟨e, ?_, rfl⟩))))))
        exact List.mem_filter.mpr ⟨hef, by simp [hm]⟩
      · refine List.mem_cons.mpr (Or.inr (List.mem_append.mpr (Or.inr
          (List.mem_map.mpr ⟨e, ?_, rfl⟩))))
        exact List.mem_filter.mpr ⟨hef, by simp [hm]⟩
  · intro raw idx hp h1 h2 hk
    have hr0 : raw ≠ "0" := by
      intro hh
      rw [hh] at hp
      have h0 : (some (0 : Int)) = some idx := hp
      have : (0 : Int) = idx := Option.some.inj h0
      omega
    have hrp : raw ≠ "p" := by
      intro hh
      rw [hh] at hp
      exact Option.noConfusion hp
    have hF : ¬(raw = "s" ∧ (false : Bool) = true) := by simp
    have hb : ¬(idx < 1 ∨ ((browseRows cwd entries).length : Int) < idx) := by
      omega
    rw [browseStep]
    simp only [if_neg hr0, if_neg hF, if_neg hrp, hp, if_neg hb, hk]
    simp

/-- Witness for C10_browser_hidden_entries: in a listing holding a hidden
directory and a hidden media file, entering the hidden file's row number
returns its path (the hidden directory contributes no row, so the file is
row 2 right after the go-up row). -/
theorem C10_browser_hidden_entries_witness :
    parseIntStr "2" = some 2
    ∧ browseStep false "/d" entsW "2" "" (fun _ => false) (fun _ => false)
        = StepOut.done (some "/d/.pic.jpg") := by
  refine ⟨rfl, ?_⟩
  have h := (C10_browser_hidden_entries "/d" entsW "" (fun _ => false)
      (fun _ => false)).2.2 "2" 2 rfl (by decide) (by decide) (by decide)
  rw [h]
  rfl
